import Mathlib

/-!
Shallow embedding of the Cutebot BLE UART command engine.

Two source variants are modelled:

* `Main` — the timed-GO + tracking-telemetry variant (`src/main.ts`,
  profile C of the spec): semicolon-delimited frames, a `GO` opcode whose
  duration is enforced by a 100 ms polling loop, and replies limited to
  `#TRK,<n>` and `#ERROR,<code>` frames.
* `Ack` — the immediate-dispatch ACK variant (`src/unnamed/part_000`,
  profile B): semicolon-delimited frames, an `#ECHO` of every raw frame,
  and `;SEQ,ACK,OP;` / `;SEQ,ERR,EC;` replies.

Strings are modelled as `List Char`; the JavaScript string primitives the
sources use (`trim`, `toUpperCase`, `split(",")`, `parseInt(_, 16)`) are
embedded below.  Side effects (actuator calls, UART writes, display
updates) are recorded as an explicit `Effect` list, in source order; the
mutable GO-timer globals of the timed variant (`goTimerActive`,
`goEndTime`) are threaded as an explicit `GoTimer` state.  Sensor pins and
the running-time clock are passed as parameters.
-/

/-- JavaScript whitespace as removed by `String.prototype.trim`: ASCII
whitespace plus NBSP, the Unicode line separators and the BOM. -/
def isJsWs (c : Char) : Bool :=
  c = ' ' ∨ c = '\t' ∨ c = '\n' ∨ c = '\r' ∨ c.val = 11 ∨ c.val = 12 ∨
    c.val = 160 ∨ c.val = 8232 ∨ c.val = 8233 ∨ c.val = 65279

/-- JS `s.trim()`: drop whitespace from both ends. -/
def jsTrim (s : List Char) : List Char :=
  ((s.dropWhile isJsWs).reverse.dropWhile isJsWs).reverse

/-- JS `s.toUpperCase()` restricted to ASCII letters; the sources only
compare opcodes against ASCII literals. -/
def jsToUpper (s : List Char) : List Char :=
  s.map Char.toUpper

/-- Value of one hex digit, case-insensitive (helper for `jsParseIntHex`). -/
def hexDigitVal (c : Char) : Option Nat :=
  if '0' ≤ c ∧ c ≤ '9' then some (c.toNat - 48)
  else if 'A' ≤ c ∧ c ≤ 'F' then some (c.toNat - 55)
  else if 'a' ≤ c ∧ c ≤ 'f' then some (c.toNat - 87)
  else none

/-- JS `parseInt(s, 16)`: skip leading whitespace, an optional sign, an
optional `0x`/`0X` prefix, then take the longest hex-digit prefix; no
digits at all gives `NaN`, modelled as `none`.  (The caller masks the
result with `& 0xFF`, which for any double-exact integer agrees with
`Int.emod _ 256`.) -/
def jsParseIntHex (s : List Char) : Option Int :=
  let t0 := jsTrim s
  let sign : Int := if t0.headD ' ' = '-' then -1 else 1
  let t1 := if t0.headD ' ' = '-' ∨ t0.headD ' ' = '+' then t0.tail else t0
  let t2 := match t1 with
    | '0' :: x :: r => if x = 'x' ∨ x = 'X' then r else t1
    | _ => t1
  let digits := t2.takeWhile (fun c => (hexDigitVal c).isSome)
  if digits = [] then none
  else some (sign * ((digits.foldl (fun v c => v * 16 + (hexDigitVal c).getD 0) 0 : Nat) : Int))

/-- JS `s.split(sep)` for a one-character separator: every occurrence of
the separator splits, empty pieces are kept, and splitting the empty
string yields `[""]`. -/
def splitOnChar (sep : Char) : List Char → List (List Char)
  | [] => [[]]
  | c :: rest =>
    if c = sep then [] :: splitOnChar sep rest
    else
      match splitOnChar sep rest with
      | [] => [[c]]
      | p :: ps => (c :: p) :: ps

/-- The `if (s.charAt(0) == ";") s = s.substr(1)` step both parsers
perform (dead after `sanitize`, which removes every `;`). -/
def stripLeadSemi (s : List Char) : List Char :=
  if s.headD ' ' = ';' then s.tail else s

/-- `sanitize` (identical in both variants): drop control characters
(code < 32) and stray `;` delimiters, then trim. -/
def sanitize (raw : List Char) : List Char :=
  jsTrim (raw.filter (fun ch => decide (32 ≤ ch.toNat) && decide (ch ≠ ';')))

/-- Loop body of `parseHexByte`: reads hex digits (`0`–`9`, `A`–`F` by
char code, the input is already uppercased), accumulating
`v = (v << 4) | d`; a non-hex character (the source's `d = -1`) breaks
out and returns the value accumulated so far. -/
def hexLoop : List Char → Nat → Nat
  | [], v => v
  | ch :: rest, v =>
    let code := ch.toNat
    let d : Option Nat :=
      if 48 ≤ code ∧ code ≤ 57 then some (code - 48)
      else if 65 ≤ code ∧ code ≤ 70 then some (code - 55)
      else none
    match d with
    | none => v
    | some dv => hexLoop rest ((v <<< 4) ||| dv)

/-- `parseHexByte` (identical in both variants): trim and uppercase the
field, return 0 when empty, otherwise read at most two hex characters
(the loop runs while `i < t.length && i < 2`), and mask the result with
`& 0xFF`. -/
def parseHexByte (s : List Char) : Nat :=
  let t := jsToUpper (jsTrim s)
  if t = [] then 0
  else hexLoop (t.take 2) 0 &&& 0xFF

/-- `hex2` from the ACK variant: two-character uppercase hex encoding of
`n & 0xFF`. -/
def hex2 (n : Nat) : List Char :=
  let m := n &&& 0xFF
  let d := "0123456789ABCDEF".data
  [d.getD ((m >>> 4) &&& 0xF) ' ', d.getD (m &&& 0xF) ' ']

/-- Parsed command (`interface Cmd`, identical in both variants):
sequence number, opcode text, and three byte arguments defaulting to 0. -/
structure Cmd where
  s : Nat
  o : List Char
  a : Nat
  b : Nat
  c : Nat
deriving DecidableEq

/-- Headlight color resolution (the `let color` computation of the `HL`
branch, identical in both executors): when `arg2` or `arg3` is nonzero,
the 24-bit RGB value of the three byte arguments; otherwise full white
when `arg1` is truthy and off when it is zero. -/
def hlColor (cmd : Cmd) : Nat :=
  if 0 < cmd.b ∨ 0 < cmd.c then
    ((cmd.a &&& 0xFF) <<< 16) ||| ((cmd.b &&& 0xFF) <<< 8) ||| (cmd.c &&& 0xFF)
  else if cmd.a ≠ 0 then 0xFFFFFF else 0x000000

/-- Buzzer frequency of the `BZ` branch (identical in both executors):
`(arg1 << 8) | arg2`, clamped by `Math.max(100, Math.min(5000, freq))`. -/
def bzFreqClamped (cmd : Cmd) : Nat :=
  max 100 (min 5000 (((cmd.a &&& 0xFF) <<< 8) ||| (cmd.b &&& 0xFF)))

/-- Buzzer duration of the `BZ` branch (identical in both executors):
`(arg3 & 0xFF) * 10` milliseconds, with a non-positive result replaced
by 100. -/
def bzDur (cmd : Cmd) : Nat :=
  let dur0 := (cmd.c &&& 0xFF) * 10
  if dur0 ≤ 0 then 100 else dur0

/-- `cuteBot.Direction`. -/
inductive Direction
  | forward
  | backward
  | left
  | right
deriving DecidableEq

/-- The display icons the sources use (`IconNames.SmallDiamond`,
`IconNames.No`). -/
inductive Icon
  | smallDiamond
  | no
deriving DecidableEq

/-- The display arrows the sources use. -/
inductive Arrow
  | south
  | north
  | east
  | west
deriving DecidableEq

/-- One observable side effect, in source order: actuator calls
(`cuteBot.*`, `music.playTone`), display updates (`basic.*`) and UART
writes (`bluetooth.uartWriteString`). -/
inductive Effect
  | motors (left right : Nat)
  | stopcar
  | moveTime (dir : Direction) (speed : Nat) (durSeconds : ℚ)
  | colorLight (rgb : Nat)
  | playTone (freqHz : Nat) (durMs : Nat)
  | showIcon (i : Icon)
  | showArrow (a : Arrow)
  | pause (ms : Nat)
  | uartWrite (payload : List Char)
deriving DecidableEq

/-- The GO-timer globals of the timed variant: `goTimerActive`,
`goEndTime`. -/
structure GoTimer where
  goTimerActive : Bool
  goEndTime : Nat
deriving DecidableEq

namespace Main

/-- `readTracking` from `src/main.ts`: both line sensors are active-low
(pin reading 0 means active); returns the 2-bit mask
`(right ? 1 : 0) | (left ? 2 : 0)`. -/
def readTracking (rPin lPin : Nat) : Nat :=
  let rActive := if rPin = 0 then 1 else 0
  let lActive := if lPin = 0 then 1 else 0
  (if rActive ≠ 0 then 1 else 0) ||| (if lActive ≠ 0 then 2 else 0)

/-- `sendTracking`: the `#TRK,<n>` telemetry frame for the current
sensor pins. -/
def trkEffect (rPin lPin : Nat) : Effect :=
  .uartWrite ("#TRK,".data ++ (toString (readTracking rPin lPin)).data ++ "\n".data)

/-- `sendError`: the `#ERROR,<code>` frame. -/
def sendError (code : List Char) : Effect :=
  .uartWrite ("#ERROR,".data ++ code ++ "\n".data)

/-- `hardStop` from `src/main.ts`: stop both motors (`motors(0,0)` then a
fail-soft `stopcar`), clear the GO timer, and flash the stop icon
(`showStopBrief` = No icon, 150 ms pause, wait icon). -/
def hardStop (st : GoTimer) : GoTimer × List Effect :=
  (⟨false, st.goEndTime⟩,
   [.motors 0 0, .stopcar, .showIcon .no, .pause 150, .showIcon .smallDiamond])

/-- `parseLine` from `src/main.ts`: sanitize; fail when fewer than two
characters remain or splitting on `,` gives fewer than two fields;
field 0 is a hex sequence number (invalid → 0, masked to a byte),
field 1 the trimmed uppercased opcode (not checked for emptiness in this
variant), fields 2–4 optional hex byte arguments. -/
def parseLine (line : List Char) : Option Cmd :=
  let clean := sanitize line
  if clean.length < 2 then none
  else
    let s := stripLeadSemi clean
    let parts := splitOnChar ',' s
    if parts.length < 2 then none
    else
      let seqHex := parts.getD 0 []
      let seqNum : Nat :=
        if seqHex ≠ [] then
          match jsParseIntHex seqHex with
          | some tmp => (tmp.emod 256).toNat
          | none => 0
        else 0
      let op := jsToUpper (jsTrim (parts.getD 1 []))
      let a := if 2 < parts.length then parseHexByte (parts.getD 2 []) else 0
      let b := if 3 < parts.length then parseHexByte (parts.getD 3 []) else 0
      let c := if 4 < parts.length then parseHexByte (parts.getD 4 []) else 0
      some { s := seqNum, o := op, a := a, b := b, c := c }

/-- `runNow` from `src/main.ts`.  `rPin`/`lPin` are the tracking-sensor
pin readings, `now` is `input.runningTime()`, `st` the GO-timer state.
Movement commands convert `cmd.b` from milliseconds to seconds; `GO`
validates its arguments, starts both motors and arms the timer. -/
def runNow (rPin lPin now : Nat) (st : GoTimer) (cmd : Cmd) : GoTimer × List Effect :=
  if cmd.o = "MV".data then
    (st, [.showArrow .south, .moveTime .forward cmd.a ((cmd.b : ℚ) / 1000),
          .showIcon .smallDiamond, trkEffect rPin lPin])
  else if cmd.o = "BK".data then
    (st, [.showArrow .north, .moveTime .backward cmd.a ((cmd.b : ℚ) / 1000),
          .showIcon .smallDiamond, trkEffect rPin lPin])
  else if cmd.o = "TL".data then
    (st, [.showArrow .east, .moveTime .left cmd.a ((cmd.b : ℚ) / 1000),
          .showIcon .smallDiamond, trkEffect rPin lPin])
  else if cmd.o = "TR".data then
    (st, [.showArrow .west, .moveTime .right cmd.a ((cmd.b : ℚ) / 1000),
          .showIcon .smallDiamond, trkEffect rPin lPin])
  else if cmd.o = "SP".data then
    let h := hardStop st
    (h.1, h.2 ++ [trkEffect rPin lPin])
  else if cmd.o = "GO".data then
    if cmd.a = 0 ∨ cmd.b = 0 then
      let h := hardStop st
      (h.1, h.2 ++ [sendError "GO_INVALID_ARGS".data])
    else
      (⟨true, now + cmd.b⟩, [.showArrow .south, .motors cmd.a cmd.a])
  else if cmd.o = "HL".data then
    (st, [.colorLight (hlColor cmd)])
  else if cmd.o = "BZ".data then
    (st, [.playTone (bzFreqClamped cmd) (bzDur cmd)])
  else if cmd.o = "EC".data then
    (st, [])
  else
    (st, [sendError ("UNKNOWN_OP_".data ++ cmd.o)])

/-- The `loops.everyInterval(100, ...)` GO-timer poll from `src/main.ts`:
when the timer is active and `now` has reached `goEndTime`, hard-stop,
send `#TRK` telemetry, and clear the flag; otherwise do nothing. -/
def tick (rPin lPin now : Nat) (st : GoTimer) : GoTimer × List Effect :=
  if st.goTimerActive = true ∧ st.goEndTime ≤ now then
    let h := hardStop st
    (⟨false, h.1.goEndTime⟩, h.2 ++ [trkEffect rPin lPin])
  else
    (st, [])

/-- The `bluetooth.onUartDataReceived` handler from `src/main.ts`:
silently drop frames that are empty after trimming, reply
`#ERROR,PARSE_FAIL` when parsing fails, otherwise execute. -/
def onUartDataReceived (rPin lPin now : Nat) (st : GoTimer) (raw : List Char) :
    GoTimer × List Effect :=
  if (jsTrim raw).length = 0 then (st, [])
  else
    match parseLine raw with
    | none => (st, [sendError "PARSE_FAIL".data])
    | some cmd => runNow rPin lPin now st cmd

end Main

namespace Ack

/-- `sendAckWithOp` from the ACK variant: the frame
`;<hex2 seq>,ACK,<opEcho>;` followed by a newline. -/
def sendAckWithOp (seq : Nat) (opEcho : List Char) : Effect :=
  .uartWrite (";".data ++ hex2 seq ++ ",ACK,".data ++ opEcho ++ ";".data ++ "\n".data)

/-- `sendErr` from the ACK variant: the frame `;<hex2 seq>,ERR,<hex2 ec>;`
followed by a newline. -/
def sendErr (seq : Nat) (ec : Nat) : Effect :=
  .uartWrite (";".data ++ hex2 seq ++ ",ERR,".data ++ hex2 ec ++ ";".data ++ "\n".data)

/-- `guessOp` from the ACK variant: best-effort opcode extraction used
for the ACK sent after a parse failure; anything unrecognized is `??`. -/
def guessOp (raw : List Char) : List Char :=
  let clean := sanitize raw
  if clean = [] then "??".data
  else
    let s := stripLeadSemi clean
    let parts := splitOnChar ',' s
    if parts.length < 2 then "??".data
    else
      let op := jsToUpper (jsTrim (parts.getD 1 []))
      if op = "MV".data ∨ op = "BK".data ∨ op = "TL".data ∨ op = "TR".data ∨
          op = "SP".data ∨ op = "HL".data ∨ op = "BZ".data ∨ op = "EC".data then op
      else "??".data

/-- `parseLine` from the ACK variant: identical to the timed variant's
parser except that an empty opcode is rejected (`if (!op) return null`). -/
def parseLine (line : List Char) : Option Cmd :=
  let clean := sanitize line
  if clean.length < 2 then none
  else
    let s := stripLeadSemi clean
    let parts := splitOnChar ',' s
    if parts.length < 2 then none
    else
      let seqHex := parts.getD 0 []
      let seqNum : Nat :=
        if seqHex ≠ [] then
          match jsParseIntHex seqHex with
          | some tmp => (tmp.emod 256).toNat
          | none => 0
        else 0
      let op := jsToUpper (jsTrim (parts.getD 1 []))
      if op = [] then none
      else
        let a := if 2 < parts.length then parseHexByte (parts.getD 2 []) else 0
        let b := if 3 < parts.length then parseHexByte (parts.getD 3 []) else 0
        let c := if 4 < parts.length then parseHexByte (parts.getD 4 []) else 0
        some { s := seqNum, o := op, a := a, b := b, c := c }

/-- `runNow` from the ACK variant: durations are passed to the actuator
in seconds unconverted, `SP` hard-stops, `HL` echoes the resolved color
as `#LED,rrggbb`, `BZ` plays a blocking tone then sends `#BUZ,done`, and
an unknown opcode replies `ERR` with code `0x01`. -/
def runNow (cmd : Cmd) : List Effect :=
  if cmd.o = "MV".data then
    [.showArrow .south, .moveTime .forward cmd.a (cmd.b : ℚ), .showIcon .smallDiamond]
  else if cmd.o = "BK".data then
    [.showArrow .north, .moveTime .backward cmd.a (cmd.b : ℚ), .showIcon .smallDiamond]
  else if cmd.o = "TL".data then
    [.showArrow .east, .moveTime .left cmd.a (cmd.b : ℚ), .showIcon .smallDiamond]
  else if cmd.o = "TR".data then
    [.showArrow .west, .moveTime .right cmd.a (cmd.b : ℚ), .showIcon .smallDiamond]
  else if cmd.o = "SP".data then
    [.motors 0 0, .stopcar, .showIcon .no, .pause 150, .showIcon .smallDiamond]
  else if cmd.o = "HL".data then
    [.colorLight (hlColor cmd),
     .uartWrite ("#LED,".data ++ hex2 ((hlColor cmd >>> 16) &&& 0xFF) ++
       hex2 ((hlColor cmd >>> 8) &&& 0xFF) ++ hex2 (hlColor cmd &&& 0xFF) ++ "\n".data)]
  else if cmd.o = "BZ".data then
    [.playTone (bzFreqClamped cmd) (bzDur cmd), .uartWrite ("#BUZ,done".data ++ "\n".data)]
  else if cmd.o = "EC".data then
    []
  else
    [sendErr cmd.s 0x01]

/-- The `bluetooth.onUartDataReceived` handler from the ACK variant:
echo the raw frame, then either ACK with a guessed opcode on parse
failure, or execute and ACK with the command's sequence number and
opcode text. -/
def onUartDataReceived (raw : List Char) : List Effect :=
  .uartWrite ("#ECHO,".data ++ raw ++ "\n".data) ::
    match parseLine raw with
    | none => [sendAckWithOp 0 (guessOp raw)]
    | some cmd => runNow cmd ++ [sendAckWithOp cmd.s (if cmd.o = [] then "??".data else cmd.o)]

end Ack

/-- Opcodes recognized by the timed-GO variant's executor. -/
def mainOps : List (List Char) :=
  ["MV".data, "BK".data, "TL".data, "TR".data, "SP".data, "GO".data,
   "HL".data, "BZ".data, "EC".data]

/-- Opcodes recognized by the ACK variant's executor (no `GO`). -/
def ackOps : List (List Char) :=
  ["MV".data, "BK".data, "TL".data, "TR".data, "SP".data,
   "HL".data, "BZ".data, "EC".data]

/-- The trimmed, uppercased opcode field (field 1) of a raw frame, as
both parsers compute it. -/
def opcodeField (raw : List Char) : List Char :=
  jsToUpper (jsTrim ((splitOnChar ',' (sanitize raw)).getD 1 []))

/-! ## Helper lemmas about the parsing primitives -/

/-- `splitOnChar` never returns an empty list of pieces. -/
theorem splitOnChar_ne_nil (sep : Char) (s : List Char) : splitOnChar sep s ≠ [] := by
  cases s with
  | nil => simp [splitOnChar]
  | cons c t =>
    simp only [splitOnChar]
    split
    · simp
    · split <;> simp

/-- Length accounting for `splitOnChar`: the pieces plus the separators
make up the whole string. -/
theorem splitOnChar_length_sum (sep : Char) (s : List Char) :
    ((splitOnChar sep s).map List.length).sum + (splitOnChar sep s).length = s.length + 1 := by
  induction s with
  | nil => simp [splitOnChar]
  | cons c t ih =>
    by_cases hc : c = sep
    · simp only [splitOnChar, if_pos hc, List.map_cons, List.sum_cons, List.length_cons,
        List.length_nil]
      omega
    · simp only [splitOnChar, if_neg hc]
      cases hsp : splitOnChar sep t with
      | nil => exact absurd hsp (splitOnChar_ne_nil sep t)
      | cons p ps =>
        rw [hsp] at ih
        simp only [List.map_cons, List.sum_cons, List.length_cons] at ih ⊢
        omega

/-- Trimming only removes characters. -/
theorem mem_jsTrim {c : Char} {l : List Char} (h : c ∈ jsTrim l) : c ∈ l := by
  unfold jsTrim at h
  rw [List.mem_reverse] at h
  have h2 := (List.dropWhile_sublist _).mem h
  rw [List.mem_reverse] at h2
  exact (List.dropWhile_sublist _).mem h2

/-- `sanitize` removes every `;`. -/
theorem semi_not_mem_sanitize (raw : List Char) : ';' ∉ sanitize raw := by
  intro h
  have h2 := mem_jsTrim h
  rw [List.mem_filter] at h2
  simp at h2

/-- The leading-`;` strip inside both parsers is dead code: `sanitize`
already removed every `;`. -/
theorem stripLeadSemi_sanitize (raw : List Char) : stripLeadSemi (sanitize raw) = sanitize raw := by
  unfold stripLeadSemi
  split
  · next h =>
    exfalso
    cases hs : sanitize raw with
    | nil => rw [hs] at h; exact absurd h (by decide)
    | cons a t =>
      rw [hs] at h
      simp only [List.headD_cons] at h
      exact semi_not_mem_sanitize raw (by rw [hs, h]; exact List.mem_cons_self _ _)
  · rfl

/-- If the trimmed uppercased opcode field is non-empty and there are at
least two comma-separated fields, the sanitized frame has at least two
characters (so the `clean.length < 2` guard does not fire). -/
theorem sanitize_length_two (raw : List Char)
    (hparts : 2 ≤ (splitOnChar ',' (sanitize raw)).length)
    (hop : opcodeField raw ≠ []) :
    2 ≤ (sanitize raw).length := by
  have hsum := splitOnChar_length_sum ',' (sanitize raw)
  rcases h0 : splitOnChar ',' (sanitize raw) with _ | ⟨p0, rest0⟩
  · exact absurd h0 (splitOnChar_ne_nil _ _)
  rcases h1 : rest0 with _ | ⟨p1, rest1⟩
  · rw [h0, h1] at hparts; simp at hparts
  have hp1 : p1 ≠ [] := by
    intro hnil
    apply hop
    unfold opcodeField
    rw [h0, h1, hnil]
    simp [List.getD, jsTrim, jsToUpper]
  have hlen1 : 1 ≤ p1.length := List.length_pos.mpr hp1
  rw [h0, h1] at hsum
  simp only [List.map_cons, List.sum_cons, List.length_cons] at hsum
  omega

/-- The timed variant's parser succeeds whenever the sanitized frame is
long enough and has at least two fields, and the opcode of the result is
the trimmed uppercased field 1. -/
theorem parseLine_main_isSome (raw : List Char)
    (h2 : ¬ (sanitize raw).length < 2)
    (hp : ¬ (splitOnChar ',' (sanitize raw)).length < 2) :
    ∃ cm, Main.parseLine raw = some cm ∧ cm.o = opcodeField raw := by
  simp only [Main.parseLine]
  rw [stripLeadSemi_sanitize, if_neg h2, if_neg hp]
  exact ⟨_, rfl, rfl⟩

/-- The ACK variant's parser succeeds under the same conditions plus a
non-empty opcode. -/
theorem parseLine_ack_isSome (raw : List Char)
    (h2 : ¬ (sanitize raw).length < 2)
    (hp : ¬ (splitOnChar ',' (sanitize raw)).length < 2)
    (hop : opcodeField raw ≠ []) :
    ∃ cm, Ack.parseLine raw = some cm ∧ cm.o = opcodeField raw := by
  simp only [opcodeField] at hop
  simp only [Ack.parseLine]
  rw [stripLeadSemi_sanitize, if_neg h2, if_neg hp, if_neg hop]
  exact ⟨_, rfl, rfl⟩

/-- The timed variant's executor on an unrecognized opcode: exactly one
`#ERROR,UNKNOWN_OP_<op>` frame, no state change, no actuator call. -/
theorem runNow_main_unknown (rPin lPin now : Nat) (st : GoTimer) (cmd : Cmd)
    (h : cmd.o ∉ mainOps) :
    Main.runNow rPin lPin now st cmd = (st, [Main.sendError ("UNKNOWN_OP_".data ++ cmd.o)]) := by
  simp only [mainOps, List.mem_cons, List.not_mem_nil, or_false] at h
  push_neg at h
  obtain ⟨h1, h2, h3, h4, h5, h6, h7, h8, h9⟩ := h
  simp only [Main.runNow, if_neg h1, if_neg h2, if_neg h3, if_neg h4, if_neg h5, if_neg h6,
    if_neg h7, if_neg h8, if_neg h9]

/-- The ACK variant's executor on an unrecognized opcode: exactly one
`;SEQ,ERR,01;` frame, no actuator call. -/
theorem runNow_ack_unknown (cmd : Cmd) (h : cmd.o ∉ ackOps) :
    Ack.runNow cmd = [Ack.sendErr cmd.s 1] := by
  simp only [ackOps, List.mem_cons, List.not_mem_nil, or_false] at h
  push_neg at h
  obtain ⟨h1, h2, h3, h4, h5, h6, h7, h8⟩ := h
  simp only [Ack.runNow, if_neg h1, if_neg h2, if_neg h3, if_neg h4, if_neg h5, if_neg h6,
    if_neg h7, if_neg h8]

/-- A command produced by the ACK variant's parser has a non-empty
opcode (the `if (!op) return null` guard). -/
theorem ack_parse_o_ne_nil {raw : List Char} {cmd : Cmd} (h : Ack.parseLine raw = some cmd) :
    cmd.o ≠ [] := by
  simp only [Ack.parseLine] at h
  split at h
  · exact Option.noConfusion h
  · split at h
    · exact Option.noConfusion h
    · split at h
      · exact Option.noConfusion h
      · next hne =>
        cases Option.some.inj h
        exact hne

/-! ## Claim theorems -/

/-- C1: in the timed-GO variant, a `GO` command with `arg1 = 0` or
`arg2 = 0` performs a hard stop (motors are commanded only to zero — no
motor start — and `stopcar` is issued), leaves the timer inactive, and
the only reply is the `#ERROR,GO_INVALID_ARGS` frame; a `GO` with both
arguments positive starts both motors at speed `arg1` and arms the timer
with end time `now + arg2`. -/
theorem go_invalid_and_valid (rPin lPin now : Nat) (st : GoTimer) (cmd : Cmd)
    (hop : cmd.o = "GO".data) :
    (cmd.a = 0 ∨ cmd.b = 0 →
      Main.runNow rPin lPin now st cmd =
        (⟨false, st.goEndTime⟩,
         [.motors 0 0, .stopcar, .showIcon .no, .pause 150, .showIcon .smallDiamond,
          Main.sendError "GO_INVALID_ARGS".data]))
    ∧ (0 < cmd.a → 0 < cmd.b →
      Main.runNow rPin lPin now st cmd =
        (⟨true, now + cmd.b⟩, [.showArrow .south, .motors cmd.a cmd.a])) := by
  constructor
  · intro hz
    simp only [Main.runNow, hop]
    rw [if_neg (by decide), if_neg (by decide), if_neg (by decide), if_neg (by decide),
      if_neg (by decide), if_pos trivial, if_pos hz]
    rfl
  · intro ha hb
    simp only [Main.runNow, hop]
    rw [if_neg (by decide), if_neg (by decide), if_neg (by decide), if_neg (by decide),
      if_neg (by decide), if_pos trivial, if_neg (by omega)]

theorem go_invalid_and_valid_witness :
    Main.runNow 1 1 1000 ⟨false, 7⟩ { s := 0, o := "GO".data, a := 0, b := 5, c := 0 } =
      (⟨false, 7⟩,
       [.motors 0 0, .stopcar, .showIcon .no, .pause 150, .showIcon .smallDiamond,
        Main.sendError "GO_INVALID_ARGS".data]) :=
  (go_invalid_and_valid 1 1 1000 ⟨false, 7⟩ _ rfl).1 (Or.inl rfl)

/-- C2: the 100 ms supervisor tick of the timed-GO variant.  When the
timer is active and the current time has reached the recorded end time,
the tick hard-stops the motors, emits the `#TRK` completion telemetry and
clears the timer; a tick with an inactive or unelapsed timer changes
nothing; and for ticks scheduled every 100 ms from any `t0` at or before
the end time, some tick fires within one tick interval after the
commanded end time. -/
theorem tick_supervises_go :
    (∀ rPin lPin now st, st.goTimerActive = true → st.goEndTime ≤ now →
      Main.tick rPin lPin now st =
        (⟨false, st.goEndTime⟩,
         [.motors 0 0, .stopcar, .showIcon .no, .pause 150, .showIcon .smallDiamond,
          Main.trkEffect rPin lPin]))
    ∧ (∀ rPin lPin now st, st.goTimerActive = false ∨ now < st.goEndTime →
      Main.tick rPin lPin now st = (st, []))
    ∧ (∀ rPin lPin t0 endT, t0 ≤ endT →
      ∃ k, endT ≤ t0 + 100 * k ∧ t0 + 100 * k < endT + 100 ∧
        Main.tick rPin lPin (t0 + 100 * k) ⟨true, endT⟩ =
          (⟨false, endT⟩,
           [.motors 0 0, .stopcar, .showIcon .no, .pause 150, .showIcon .smallDiamond,
            Main.trkEffect rPin lPin])) := by
  refine ⟨?_, ?_, ?_⟩
  · intro rPin lPin now st ha he
    simp only [Main.tick, if_pos (And.intro ha he)]
    rfl
  · intro rPin lPin now st h
    simp only [Main.tick]
    rw [if_neg]
    rintro ⟨h1, h2⟩
    rcases h with h | h
    · rw [h] at h1; exact Bool.noConfusion h1
    · omega
  · intro rPin lPin t0 endT hle
    refine ⟨(endT - t0 + 99) / 100, by omega, by omega, ?_⟩
    simp only [Main.tick]
    rw [if_pos (And.intro trivial (by omega : endT ≤ t0 + 100 * ((endT - t0 + 99) / 100)))]
    rfl

theorem tick_supervises_go_witness :
    Main.tick 1 1 500 ⟨true, 300⟩ =
      (⟨false, 300⟩,
       [.motors 0 0, .stopcar, .showIcon .no, .pause 150, .showIcon .smallDiamond,
        Main.trkEffect 1 1]) :=
  tick_supervises_go.1 1 1 500 ⟨true, 300⟩ rfl (by decide)

/-- C3: while a GO timer is active, an `SP` command hard-stops the motors
and clears the timer-active flag immediately, so any subsequent
supervisor tick finds the timer inactive and emits no second stop and no
second telemetry. -/
theorem sp_cancels_go_timer (rPin lPin now rPin2 lPin2 now2 : Nat) (st : GoTimer) (cmd : Cmd)
    (hop : cmd.o = "SP".data) (_hactive : st.goTimerActive = true) :
    Main.runNow rPin lPin now st cmd =
      (⟨false, st.goEndTime⟩,
       [.motors 0 0, .stopcar, .showIcon .no, .pause 150, .showIcon .smallDiamond,
        Main.trkEffect rPin lPin])
    ∧ (Main.runNow rPin lPin now st cmd).1.goTimerActive = false
    ∧ Main.tick rPin2 lPin2 now2 (Main.runNow rPin lPin now st cmd).1 =
        ((Main.runNow rPin lPin now st cmd).1, []) := by
  have hrun : Main.runNow rPin lPin now st cmd =
      (⟨false, st.goEndTime⟩,
       [.motors 0 0, .stopcar, .showIcon .no, .pause 150, .showIcon .smallDiamond,
        Main.trkEffect rPin lPin]) := by
    simp only [Main.runNow, hop]
    rw [if_neg (by decide), if_neg (by decide), if_neg (by decide), if_neg (by decide),
      if_pos trivial]
    rfl
  refine ⟨hrun, ?_, ?_⟩
  · rw [hrun]
  · rw [hrun]
    simp only [Main.tick]
    rw [if_neg]
    rintro ⟨h1, _⟩
    exact Bool.noConfusion h1

theorem sp_cancels_go_timer_witness :
    Main.tick 2 2 9999
        (Main.runNow 1 1 0 ⟨true, 400⟩ { s := 0, o := "SP".data, a := 0, b := 0, c := 0 }).1 =
      ((Main.runNow 1 1 0 ⟨true, 400⟩ { s := 0, o := "SP".data, a := 0, b := 0, c := 0 }).1,
       []) :=
  (sp_cancels_go_timer 1 1 0 2 2 9999 ⟨true, 400⟩ _ rfl rfl).2.2

/-- C4: a frame with at least two comma-separated fields and a non-empty
opcode field parses successfully in both variants (an unknown opcode is
not a parse error), and when the opcode is not recognized the executor
only sends an error reply — `#ERROR,UNKNOWN_OP_<op>` in the timed-GO
variant, `;SEQ,ERR,01;` in the ACK variant — and performs no actuator
call and no state change. -/
theorem unknown_opcode_error_reply (raw : List Char)
    (hparts : 2 ≤ (splitOnChar ',' (sanitize raw)).length)
    (hop : opcodeField raw ≠ []) :
    (∃ cm, Main.parseLine raw = some cm ∧ cm.o = opcodeField raw ∧
      (opcodeField raw ∉ mainOps → ∀ rPin lPin now st,
        Main.runNow rPin lPin now st cm =
          (st, [Main.sendError ("UNKNOWN_OP_".data ++ cm.o)])))
    ∧ (∃ ca, Ack.parseLine raw = some ca ∧ ca.o = opcodeField raw ∧
      (opcodeField raw ∉ ackOps → Ack.runNow ca = [Ack.sendErr ca.s 1])) := by
  have hlen := sanitize_length_two raw hparts hop
  have h2 : ¬ (sanitize raw).length < 2 := by omega
  have hp : ¬ (splitOnChar ',' (sanitize raw)).length < 2 := by omega
  obtain ⟨cm, hcm, hcmo⟩ := parseLine_main_isSome raw h2 hp
  obtain ⟨ca, hca, hcao⟩ := parseLine_ack_isSome raw h2 hp hop
  refine ⟨⟨cm, hcm, hcmo, ?_⟩, ⟨ca, hca, hcao, ?_⟩⟩
  · intro hmem rPin lPin now st
    exact runNow_main_unknown rPin lPin now st cm (by rw [hcmo]; exact hmem)
  · intro hmem
    exact runNow_ack_unknown ca (by rw [hcao]; exact hmem)

theorem unknown_opcode_error_reply_witness :
    Main.runNow 1 1 0 ⟨false, 0⟩ { s := 0, o := "ZZ".data, a := 1, b := 2, c := 0 } =
      (⟨false, 0⟩, [Main.sendError ("UNKNOWN_OP_".data ++ "ZZ".data)]) := by
  obtain ⟨cm, hcm, hcmo, hrun⟩ :=
    (unknown_opcode_error_reply ";00,ZZ,01,02;".data (by decide) (by decide)).1
  have he : some cm = some { s := 0, o := "ZZ".data, a := 1, b := 2, c := 0 } := by
    rw [← hcm]; decide
  cases Option.some.inj he
  exact hrun (by decide) 1 1 0 ⟨false, 0⟩

/-- C5 counterexample: in the timed-GO variant an empty opcode field with
two or more comma-separated fields is not a parse error — `"0,,"`
sanitizes to three fields with an empty opcode, yet `parseLine` returns a
structured command (with empty opcode text) instead of `none`. -/
theorem parse_empty_opcode_cex :
    Main.parseLine "0,,".data = some { s := 0, o := [], a := 0, b := 0, c := 0 } ∧
    opcodeField "0,,".data = [] ∧
    2 ≤ (splitOnChar ',' (sanitize "0,,".data)).length := by
  refine ⟨by decide, by decide, by decide⟩

/-- C5 amended: the ACK variant's parser fails exactly when fewer than
two comma-separated fields remain after sanitizing or the trimmed
uppercased opcode field is empty; the timed-GO variant's parser fails
exactly when the sanitized text is shorter than two characters or has
fewer than two fields — an empty opcode there still yields a structured
command. -/
theorem parse_none_characterization (line : List Char) :
    (Ack.parseLine line = none ↔
      (splitOnChar ',' (sanitize line)).length < 2 ∨ opcodeField line = [])
    ∧ (Main.parseLine line = none ↔
      (sanitize line).length < 2 ∨ (splitOnChar ',' (sanitize line)).length < 2) := by
  constructor
  · simp only [Ack.parseLine, opcodeField]
    rw [stripLeadSemi_sanitize]
    by_cases h2 : (sanitize line).length < 2
    · rw [if_pos h2]
      constructor
      · intro _
        rcases hcl : sanitize line with _ | ⟨c, _ | ⟨d, rest⟩⟩
        · left; simp [splitOnChar]
        · by_cases hc : c = ','
          · right
            subst hc
            decide
          · left
            simp [splitOnChar, hc]
        · rw [hcl] at h2
          simp at h2
          omega
      · intro _; rfl
    · rw [if_neg h2]
      by_cases hp : (splitOnChar ',' (sanitize line)).length < 2
      · rw [if_pos hp]
        exact iff_of_true rfl (Or.inl hp)
      · rw [if_neg hp]
        by_cases ho : jsToUpper (jsTrim ((splitOnChar ',' (sanitize line)).getD 1 [])) = []
        · rw [if_pos ho]
          exact iff_of_true rfl (Or.inr ho)
        · rw [if_neg ho]
          constructor
          · intro h; exact Option.noConfusion h
          · rintro (h | h)
            · exact absurd h hp
            · exact absurd h ho
  · simp only [Main.parseLine]
    rw [stripLeadSemi_sanitize]
    by_cases h2 : (sanitize line).length < 2
    · rw [if_pos h2]
      exact iff_of_true rfl (Or.inl h2)
    · rw [if_neg h2]
      by_cases hp : (splitOnChar ',' (sanitize line)).length < 2
      · rw [if_pos hp]
        exact iff_of_true rfl (Or.inr hp)
      · rw [if_neg hp]
        constructor
        · intro h; exact Option.noConfusion h
        · rintro (h | h)
          · exact absurd h h2
          · exact absurd h hp

/-- C6: the tolerant hex-byte decoder maps the empty field to 0, `"1"` to
1, `"FF"` (and lowercase `"ff"`) to 255, `"G1"` to 0 (it stops at the
first non-hex character, as `"1G"` ↦ 1 also shows), reads at most two hex
characters (`"1A2"` ↦ 0x1A), and always returns a value in [0, 255]. -/
theorem parseHexByte_tolerant :
    parseHexByte "".data = 0 ∧ parseHexByte "1".data = 1 ∧ parseHexByte "FF".data = 255 ∧
    parseHexByte "ff".data = 255 ∧ parseHexByte "G1".data = 0 ∧
    parseHexByte "1A2".data = 26 ∧ parseHexByte "1G".data = 1 ∧
    ∀ s : List Char, parseHexByte s ≤ 255 := by
  refine ⟨by decide, by decide, by decide, by decide, by decide, by decide, by decide, ?_⟩
  intro s
  simp only [parseHexByte]
  split
  · omega
  · exact Nat.and_le_right

set_option maxRecDepth 8000 in
/-- C7: encoding any byte value with `hex2` and decoding it with the
tolerant hex-byte reader `parseHexByte` is the identity on [0, 255]. -/
theorem hex2_parseHexByte_roundtrip : ∀ v : Nat, v < 256 → parseHexByte (hex2 v) = v := by
  decide

theorem hex2_parseHexByte_roundtrip_witness : parseHexByte (hex2 171) = 171 :=
  hex2_parseHexByte_roundtrip 171 (by decide)

set_option maxRecDepth 8000 in
/-- C8 counterexample: in the timed-GO variant the `HL` handler sets the
light color actuator but emits no telemetry frame at all — for `HL` with
RGB (1, 2, 3) the complete effect list is the single `colorLight` call
(0x010203 = 66051), so no light telemetry echoing the resolved color is
sent, contrary to the claim. -/
theorem hl_no_led_telemetry_cex :
    Main.runNow 1 1 0 ⟨false, 0⟩ { s := 0, o := "HL".data, a := 1, b := 2, c := 3 } =
      (⟨false, 0⟩, [Effect.colorLight 66051]) := by
  decide

/-- C8 amended: for every `HL` command the resolved color is `hlColor`
(RGB `(arg1 << 16) | (arg2 << 8) | arg3` when `arg2` or `arg3` is
nonzero, else white iff `arg1` is nonzero) and the light actuator is set
to it in both variants; only the ACK variant emits a `#LED,rrggbb`
telemetry frame echoing the resolved color — the timed-GO variant emits
nothing for `HL`. -/
theorem hl_resolved_color (rPin lPin now : Nat) (st : GoTimer) (cmd : Cmd)
    (hop : cmd.o = "HL".data) :
    Main.runNow rPin lPin now st cmd = (st, [.colorLight (hlColor cmd)])
    ∧ Ack.runNow cmd =
        [.colorLight (hlColor cmd),
         .uartWrite ("#LED,".data ++ hex2 ((hlColor cmd >>> 16) &&& 0xFF) ++
           hex2 ((hlColor cmd >>> 8) &&& 0xFF) ++ hex2 (hlColor cmd &&& 0xFF) ++ "\n".data)] := by
  constructor
  · simp only [Main.runNow, hop]
    rw [if_neg (by decide), if_neg (by decide), if_neg (by decide), if_neg (by decide),
      if_neg (by decide), if_neg (by decide), if_pos trivial]
  · simp only [Ack.runNow, hop]
    rw [if_neg (by decide), if_neg (by decide), if_neg (by decide), if_neg (by decide),
      if_neg (by decide), if_pos trivial]

theorem hl_resolved_color_witness :
    Main.runNow 1 1 0 ⟨false, 0⟩ { s := 0, o := "HL".data, a := 5, b := 0, c := 0 } =
      (⟨false, 0⟩,
       [.colorLight (hlColor { s := 0, o := "HL".data, a := 5, b := 0, c := 0 })]) :=
  (hl_resolved_color 1 1 0 ⟨false, 0⟩ _ rfl).1

/-- C9: for every `BZ` command, both executors pass to the tone actuator
the frequency `bzFreqClamped` — `(arg1 << 8) | arg2` clamped into
[100, 5000] — and the duration `bzDur`, which is `arg3 * 10` ms with a
zero result replaced by 100 ms. -/
theorem bz_freq_duration (rPin lPin now : Nat) (st : GoTimer) (cmd : Cmd)
    (hop : cmd.o = "BZ".data) :
    Main.runNow rPin lPin now st cmd = (st, [.playTone (bzFreqClamped cmd) (bzDur cmd)])
    ∧ Ack.runNow cmd =
        [.playTone (bzFreqClamped cmd) (bzDur cmd),
         .uartWrite ("#BUZ,done".data ++ "\n".data)]
    ∧ 100 ≤ bzFreqClamped cmd ∧ bzFreqClamped cmd ≤ 5000
    ∧ bzDur cmd = (if (cmd.c &&& 0xFF) * 10 = 0 then 100 else (cmd.c &&& 0xFF) * 10) := by
  refine ⟨?_, ?_, ?_, ?_, ?_⟩
  · simp only [Main.runNow, hop]
    rw [if_neg (by decide), if_neg (by decide), if_neg (by decide), if_neg (by decide),
      if_neg (by decide), if_neg (by decide), if_neg (by decide), if_pos trivial]
  · simp only [Ack.runNow, hop]
    rw [if_neg (by decide), if_neg (by decide), if_neg (by decide), if_neg (by decide),
      if_neg (by decide), if_neg (by decide), if_pos trivial]
  · simp only [bzFreqClamped]
    omega
  · simp only [bzFreqClamped]
    omega
  · simp only [bzDur, Nat.le_zero]

theorem bz_freq_duration_witness :
    Main.runNow 1 1 0 ⟨false, 0⟩ { s := 0, o := "BZ".data, a := 1, b := 0, c := 0 } =
      (⟨false, 0⟩,
       [.playTone (bzFreqClamped { s := 0, o := "BZ".data, a := 1, b := 0, c := 0 })
          (bzDur { s := 0, o := "BZ".data, a := 1, b := 0, c := 0 })]) :=
  (bz_freq_duration 1 1 0 ⟨false, 0⟩ _ rfl).1

/-- C10: in the ACK variant every received frame is first echoed as
`#ECHO,<raw>`; every frame that parses successfully is additionally
answered with an ACK carrying its own sequence number and opcode text
(the parser guarantees a non-empty opcode, so the `??` fallback never
fires); in particular a frame with an unknown opcode elicits exactly the
echo, the `ERR` reply, and the `ACK` reply. -/
theorem echo_then_ack_even_after_err :
    (∀ raw, (Ack.onUartDataReceived raw).head? =
      some (.uartWrite ("#ECHO,".data ++ raw ++ "\n".data)))
    ∧ (∀ raw cmd, Ack.parseLine raw = some cmd →
      Ack.onUartDataReceived raw =
        .uartWrite ("#ECHO,".data ++ raw ++ "\n".data) ::
          (Ack.runNow cmd ++ [Ack.sendAckWithOp cmd.s cmd.o]))
    ∧ (∀ raw cmd, Ack.parseLine raw = some cmd → cmd.o ∉ ackOps →
      Ack.onUartDataReceived raw =
        [.uartWrite ("#ECHO,".data ++ raw ++ "\n".data),
         Ack.sendErr cmd.s 1,
         Ack.sendAckWithOp cmd.s cmd.o]) := by
  refine ⟨?_, ?_, ?_⟩
  · intro raw
    rfl
  · intro raw cmd h
    simp only [Ack.onUartDataReceived, h]
    rw [if_neg (ack_parse_o_ne_nil h)]
  · intro raw cmd h hunk
    simp only [Ack.onUartDataReceived, h]
    rw [if_neg (ack_parse_o_ne_nil h), runNow_ack_unknown cmd hunk]
    rfl

theorem echo_then_ack_even_after_err_witness :
    Ack.onUartDataReceived ";00,ZZ,00,00;".data =
      [.uartWrite ("#ECHO,".data ++ ";00,ZZ,00,00;".data ++ "\n".data),
       Ack.sendErr ({ s := 0, o := "ZZ".data, a := 0, b := 0, c := 0 } : Cmd).s 1,
       Ack.sendAckWithOp ({ s := 0, o := "ZZ".data, a := 0, b := 0, c := 0 } : Cmd).s
         ({ s := 0, o := "ZZ".data, a := 0, b := 0, c := 0 } : Cmd).o] :=
  echo_then_ack_even_after_err.2.2 ";00,ZZ,00,00;".data
    { s := 0, o := "ZZ".data, a := 0, b := 0, c := 0 } (by decide) (by decide)
